import Mathlib

/-!
Verification of the ledger balance-chain engine of the personal account
tracker (src/App.tsx, src/types.ts, src/components/TransactionForm.tsx,
src/services/googleSheets.ts).

The embedding is shallow.  Entries are the `Transaction` objects of
`src/types.ts`; because the entries travel through `JSON.parse` /
`JSON.stringify` (see `storageService` in `src/services/googleSheets.ts`)
their numeric fields can at runtime hold values other than ordinary
numbers, and `src/App.tsx` defends against that with the JavaScript
coercions `Number(x || 0)` and `Number(x) || 0`.  A numeric field is
therefore modelled by `JVal` below:

  * `JVal.num q`  — a JavaScript number that is not `NaN` (reals are
    modelled by `ℚ`; none of the verified claims depends on binary
    rounding, every arithmetic step of the source is mirrored 1:1);
  * `JVal.nan`    — the JavaScript number `NaN`;
  * `JVal.undef`  — a missing field (`undefined`; `null` and the empty
    string coerce identically in every expression modelled here, so they
    are folded into this constructor);
  * `JVal.strBad` — a non-empty string that does not parse as a number
    (`Number` of it is `NaN`, but it is truthy).  A non-empty *numeric*
    string coerces exactly like the number it denotes in every expression
    modelled here, so it is represented by `JVal.num` directly.

`date`, `timestamp` and `month` are ISO / label strings and are modelled
by `String` with its lexicographic order, matching `localeCompare` on ISO
strings.  `x.timestamp || ''` is the identity on strings (the only falsy
string is `''` itself), so the comparator's fallback needs no extra case.
-/

/-- A JavaScript runtime value stored in a numeric field of a ledger entry. -/
inductive JVal where
  | num (q : ℚ)
  | nan
  | undef
  | strBad
  deriving DecidableEq, Repr

/-- A JavaScript number: `some q` is an ordinary number, `none` is `NaN`. -/
abbrev JNum := Option ℚ

/-- The result of applying JavaScript `Number(·)` to a `JVal`. -/
def jnum : JVal → JNum
  | .num q => some q
  | .nan => none
  | .undef => none
  | .strBad => none

/-- The JavaScript expression `Number(x || 0)` (used in `src/App.tsx` for
`broughtForward`, `dailyCash`, the merge sums and the resolver): a falsy
value (`0`, `NaN`, `undefined`, `null`, `''`) is replaced by `0` before
conversion, so a truthy non-numeric string still yields `NaN`.  For
`x = 0` the fallback produces `Number(0) = 0 = x` again, so the `num`
case returns the number unchanged. -/
def jnumOfOr : JVal → JNum
  | .num q => some q
  | .nan => some 0
  | .undef => some 0
  | .strBad => none

/-- The JavaScript expression `Number(x) || 0` (used in `src/App.tsx` line
100 for the expense categories, and `val` in `TransactionForm.tsx`): the
conversion happens first, so `NaN` (and a zero result) collapses to `0`. -/
def toNumOr0 (x : JVal) : ℚ :=
  (jnum x).getD 0

/-- JavaScript `+` on numbers: `NaN` is absorbing. -/
def jadd : JNum → JNum → JNum
  | some a, some b => some (a + b)
  | _, _ => none

/-- JavaScript `-` on numbers: `NaN` is absorbing. -/
def jsub : JNum → JNum → JNum
  | some a, some b => some (a - b)
  | _, _ => none

/-- Storing a JavaScript number back into a field. -/
def ofNum : JNum → JVal
  | some q => .num q
  | none => .nan

/-- The `Transaction` record of `src/types.ts`.  `id?: string` becomes
`Option String`; all amount fields are runtime `JVal`s. -/
structure Tx where
  id : Option String
  date : String
  month : String
  groceries : JVal
  vegetables : JVal
  fishEgg : JVal
  chicken : JVal
  houseRent : JVal
  electricity : JVal
  water : JVal
  travel : JVal
  fuel : JVal
  bikeRepair : JVal
  parcel : JVal
  compoundInvestment : JVal
  others : JVal
  dailyCash : JVal
  broughtForward : JVal
  totalExpenses : JVal
  totalBalance : JVal
  timestamp : String
  deriving DecidableEq, Repr

/-- The sort key used by the comparator of `recalculateChain` and
`getStartingBalance` (`src/App.tsx` lines 86-90 and 123-127):
primary `date`, tie-break `timestamp`. -/
def keyOf (a : Tx) : String × String :=
  (a.date, a.timestamp)

/-- The string comparison performed by `localeCompare` on the code points of
its arguments, stated on the character data of the strings (for ISO dates
and timestamps `localeCompare` agrees with code-point order). -/
def strLt (a b : String) : Prop :=
  a.data < b.data

instance strLt.instDecidable : ∀ a b, Decidable (strLt a b) := fun a b =>
  inferInstanceAs (Decidable (a.data < b.data))

/-- Data-level comparison agrees with the ambient linear order on `String`. -/
theorem strLt_iff_lt (a b : String) : strLt a b ↔ a < b :=
  Iff.symm String.lt_iff_toList_lt

/-- The comparator of `src/App.tsx` lines 86-90 as a (total pre-)order:
`a` may stay before `b` exactly when the comparator returns `≤ 0`, i.e.
the dates compare `< 0`, or they are equal and the timestamps compare
`≤ 0`. -/
def txLE (a b : Tx) : Prop :=
  strLt a.date b.date ∨ (a.date = b.date ∧ ¬ strLt b.timestamp a.timestamp)

instance : DecidableRel txLE := fun a b =>
  inferInstanceAs (Decidable (_ ∨ _ ∧ _))

instance : IsTotal Tx txLE where
  total a b := by
    unfold txLE
    simp only [strLt_iff_lt]
    rcases lt_trichotomy a.date b.date with h | h | h
    · exact Or.inl (Or.inl h)
    · rcases le_total a.timestamp b.timestamp with ht | ht
      · exact Or.inl (Or.inr ⟨h, not_lt.mpr ht⟩)
      · exact Or.inr (Or.inr ⟨h.symm, not_lt.mpr ht⟩)
    · exact Or.inr (Or.inl h)

instance : IsTrans Tx txLE where
  trans a b c hab hbc := by
    unfold txLE at *
    simp only [strLt_iff_lt] at *
    rcases hab with h1 | ⟨e1, t1⟩
    · rcases hbc with h2 | ⟨e2, _⟩
      · exact Or.inl (h1.trans h2)
      · exact Or.inl (e2 ▸ h1)
    · rcases hbc with h2 | ⟨e2, t2⟩
      · exact Or.inl (e1 ▸ h2)
      · exact Or.inr ⟨e1.trans e2,
          not_lt.mpr ((not_lt.mp t1).trans (not_lt.mp t2))⟩

/-- The stable sort `[...txs].sort(comparator)` of `src/App.tsx`.
JavaScript `Array.prototype.sort` is specified stable; insertion sort is
the canonical stable sort, so it computes the same output. -/
def sortTx (txs : List Tx) : List Tx :=
  txs.insertionSort txLE

/-- The nine balance-affecting category amounts of an entry, summed with the
coercion `Number(tx[cat]) || 0`, in the order of the `categories` array of
`src/App.tsx` line 92 (the fold starts at `0`; the parallel fields `fuel`,
`bikeRepair`, `parcel`, `compoundInvestment` are not in that array). -/
def expenseOf (tx : Tx) : ℚ :=
  toNumOr0 tx.groceries + toNumOr0 tx.vegetables + toNumOr0 tx.fishEgg +
    toNumOr0 tx.chicken + toNumOr0 tx.houseRent + toNumOr0 tx.electricity +
    toNumOr0 tx.water + toNumOr0 tx.travel + toNumOr0 tx.others

/-- The body of the `sorted.map` callback of `recalculateChain`
(`src/App.tsx` lines 95-111) for one entry, given the opening balance `bf`
chosen for it: returns the emitted copy together with the new running
balance (`runningBalance = totalBalance`). -/
def applyTx (bf : JNum) (tx : Tx) : Tx × JNum :=
  let income := jnumOfOr tx.dailyCash
  let expense := expenseOf tx
  let tb := jsub (jadd bf income) (some expense)
  ({ tx with
      broughtForward := ofNum bf
      totalExpenses := .num expense
      totalBalance := ofNum tb }, tb)

/-- The `index > 0` part of the scan of `recalculateChain`: every entry
after the first takes the running balance as its opening balance. -/
def recalcGo : JNum → List Tx → List Tx
  | _, [] => []
  | running, tx :: rest =>
    (applyTx running tx).1 :: recalcGo (applyTx running tx).2 rest

/-- The Chain Recalculator `recalculateChain` of `src/App.tsx` lines 82-112:
sort by `(date, timestamp)`, then scan left to right; the first entry keeps
its own `broughtForward` (`Number(tx.broughtForward || 0)`), every later
entry is forced to the previous entry's `totalBalance`. -/
def recalculateChain (txs : List Tx) : List Tx :=
  match sortTx txs with
  | [] => []
  | tx :: rest =>
    (applyTx (jnumOfOr tx.broughtForward) tx).1 ::
      recalcGo (applyTx (jnumOfOr tx.broughtForward) tx).2 rest

/-- The Starting-Balance Resolver `getStartingBalance` of `src/App.tsx`
lines 119-141.  Returns the JavaScript number the function returns. -/
def getStartingBalance (txs : List Tx) (targetDate : String) : JNum :=
  if txs = [] then some 0
  else
    match (sortTx txs).find? (fun tx => tx.date = targetDate) with
    | some sameDayEntry => jnumOfOr sameDayEntry.broughtForward
    | none =>
      match (sortTx txs).reverse.find? (fun tx => decide (strLt tx.date targetDate)) with
      | some lastValidEntry => jnumOfOr lastValidEntry.totalBalance
      | none => some 0

/-- The merge branch of `onAddTransaction` (`src/App.tsx` lines 222-232):
`dailyCash` and the nine listed categories are summed with
`Number(existing[f] || 0) + Number(data[f] || 0)`, the `timestamp` becomes
the current instant, and every other field — including `broughtForward`
and the parallel fields `fuel`, `bikeRepair`, `parcel`,
`compoundInvestment` — is taken from the existing entry by the spread. -/
def mergeTx (existing data : Tx) (now : String) : Tx :=
  { existing with
      dailyCash := ofNum (jadd (jnumOfOr existing.dailyCash) (jnumOfOr data.dailyCash))
      groceries := ofNum (jadd (jnumOfOr existing.groceries) (jnumOfOr data.groceries))
      vegetables := ofNum (jadd (jnumOfOr existing.vegetables) (jnumOfOr data.vegetables))
      fishEgg := ofNum (jadd (jnumOfOr existing.fishEgg) (jnumOfOr data.fishEgg))
      chicken := ofNum (jadd (jnumOfOr existing.chicken) (jnumOfOr data.chicken))
      houseRent := ofNum (jadd (jnumOfOr existing.houseRent) (jnumOfOr data.houseRent))
      electricity := ofNum (jadd (jnumOfOr existing.electricity) (jnumOfOr data.electricity))
      water := ofNum (jadd (jnumOfOr existing.water) (jnumOfOr data.water))
      travel := ofNum (jadd (jnumOfOr existing.travel) (jnumOfOr data.travel))
      others := ofNum (jadd (jnumOfOr existing.others) (jnumOfOr data.others))
      timestamp := now }

/-- The list produced by `onAddTransaction` (`src/App.tsx` lines 218-238)
before recalculation: the first entry whose `date` equals `data.date` is
replaced by the merge (`findIndex` + in-place assignment); if none exists
the entry is appended with a fresh `id` and the current `timestamp`. -/
def addList : List Tx → Tx → String → String → List Tx
  | [], data, now, newId => [{ data with id := some newId, timestamp := now }]
  | tx :: rest, data, now, newId =>
    if tx.date = data.date then mergeTx tx data now :: rest
    else tx :: addList rest data now newId

/-- What `onAddTransaction` persists (`src/App.tsx` lines 240-242):
`saveAllTransactions(recalculateChain(newList))`. -/
def persistedAdd (stored : List Tx) (data : Tx) (now newId : String) : List Tx :=
  recalculateChain (addList stored data now newId)

/-- The list produced by `onUpdateTransaction` (`src/App.tsx` line 250)
before recalculation: every entry whose `id` equals the given one is
replaced by the submitted data, keeping the `id`. -/
def updateList (stored : List Tx) (i : String) (data : Tx) : List Tx :=
  stored.map (fun tx => if tx.id = some i then { data with id := some i } else tx)

/-- What `onUpdateTransaction` persists (`src/App.tsx` lines 252-253). -/
def persistedUpdate (stored : List Tx) (i : String) (data : Tx) : List Tx :=
  recalculateChain (updateList stored i data)

/-- The list produced by the confirmed branch of `onDeleteTransaction`
(`src/App.tsx` line 262): `filter(tx => tx.id !== id)`. -/
def deleteList (stored : List Tx) (i : String) : List Tx :=
  stored.filter (fun tx => decide (tx.id ≠ some i))

/-- What `onDeleteTransaction` persists (`src/App.tsx` lines 264-265). -/
def persistedDelete (stored : List Tx) (i : String) : List Tx :=
  recalculateChain (deleteList stored i)

/-- English month names as produced by
`toLocaleString('en-US', { month: 'long' })`. -/
def monthName : Nat → Option String
  | 1 => some "January"
  | 2 => some "February"
  | 3 => some "March"
  | 4 => some "April"
  | 5 => some "May"
  | 6 => some "June"
  | 7 => some "July"
  | 8 => some "August"
  | 9 => some "September"
  | 10 => some "October"
  | 11 => some "November"
  | 12 => some "December"
  | _ => none

/-- Decimal digit parsing of a character run: the value of the digits, or
`none` on an empty run or a non-digit character. -/
def parseDigits : Nat → List Char → Option Nat
  | acc, [] => some acc
  | acc, c :: cs =>
    if ('0' ≤ c ∧ c ≤ '9') then parseDigits (acc * 10 + (c.toNat - 48)) cs
    else none

/-- Decimal parse of a character run, `none` when empty or non-numeric. -/
def parseNat (cs : List Char) : Option Nat :=
  if cs = [] then none else parseDigits 0 cs

/-- Decimal digits of a natural number, with enough fuel in the first
argument (structural recursion keeps this kernel-computable). -/
def natDigits : Nat → Nat → List Char → List Char
  | 0, _, acc => acc
  | fuel + 1, n, acc =>
    let d := Char.ofNat (48 + n % 10)
    if n < 10 then d :: acc else natDigits fuel (n / 10) (d :: acc)

/-- Decimal rendering of a natural number (`String(n)` / `toString`). -/
def natRepr (n : Nat) : String :=
  String.mk (natDigits (n + 1) n [])

/-- The month-year display label derived from an ISO `yyyy-mm-dd` date, as
computed in `handleSubmit` of `src/components/TransactionForm.tsx` lines
113-114 (`new Date(date).toLocaleString('en-US', { month: 'long',
year: 'numeric' })`, read at UTC as the ISO date parse fixes; an
unparsable date renders as the "Invalid Date" label). -/
def monthLabel (date : String) : String :=
  match parseNat (date.data.take 4), parseNat ((date.data.drop 5).take 2) with
  | some y, some m =>
    match monthName m with
    | some name => name ++ " " ++ natRepr y
    | none => "Invalid Date"
  | _, _ => "Invalid Date"

/-- The state of the entry form of `src/components/TransactionForm.tsx`:
the `date` plus the eleven numeric inputs (the form has no inputs for the
parallel fields `fuel`, `bikeRepair`, `parcel`, `compoundInvestment`, nor
an `id`), and the `timestamp` of the entry being edited, if any. -/
structure FormState where
  date : String
  groceries : JVal
  vegetables : JVal
  fishEgg : JVal
  chicken : JVal
  houseRent : JVal
  electricity : JVal
  water : JVal
  travel : JVal
  others : JVal
  dailyCash : JVal
  broughtForward : JVal
  initialTimestamp : Option String
  deriving DecidableEq, Repr

/-- The expense total shown by the form (`TransactionForm.tsx` lines
96-105), using `val v = isNaN(Number(v)) ? 0 : Number(v)`, which is the
same function as `Number(v) || 0` up to the irrelevant zero case. -/
def formExpenses (fs : FormState) : ℚ :=
  toNumOr0 fs.groceries + toNumOr0 fs.vegetables + toNumOr0 fs.fishEgg +
    toNumOr0 fs.chicken + toNumOr0 fs.houseRent + toNumOr0 fs.electricity +
    toNumOr0 fs.water + toNumOr0 fs.travel + toNumOr0 fs.others

/-- The `Transaction` submitted by `handleSubmit` of
`src/components/TransactionForm.tsx` lines 109-134 (the success path, after
date validation): every amount field is `val`-coerced, `month` is derived
from `date`, and the `timestamp` is the edited entry's one or the current
instant. -/
def formSubmit (fs : FormState) (now : String) : Tx :=
  { id := none
    date := fs.date
    month := monthLabel fs.date
    groceries := .num (toNumOr0 fs.groceries)
    vegetables := .num (toNumOr0 fs.vegetables)
    fishEgg := .num (toNumOr0 fs.fishEgg)
    chicken := .num (toNumOr0 fs.chicken)
    houseRent := .num (toNumOr0 fs.houseRent)
    electricity := .num (toNumOr0 fs.electricity)
    water := .num (toNumOr0 fs.water)
    travel := .num (toNumOr0 fs.travel)
    fuel := .undef
    bikeRepair := .undef
    parcel := .undef
    compoundInvestment := .undef
    others := .num (toNumOr0 fs.others)
    dailyCash := .num (toNumOr0 fs.dailyCash)
    broughtForward := .num (toNumOr0 fs.broughtForward)
    totalExpenses := .num (formExpenses fs)
    totalBalance := .num (toNumOr0 fs.broughtForward + toNumOr0 fs.dailyCash - formExpenses fs)
    timestamp := fs.initialTimestamp.getD now }

/-- Two entries agree on every field other than the derived
`broughtForward`, `totalExpenses`, `totalBalance`. -/
def SameFrame (a b : Tx) : Prop :=
  a.id = b.id ∧ a.date = b.date ∧ a.month = b.month ∧
    a.groceries = b.groceries ∧ a.vegetables = b.vegetables ∧
    a.fishEgg = b.fishEgg ∧ a.chicken = b.chicken ∧
    a.houseRent = b.houseRent ∧ a.electricity = b.electricity ∧
    a.water = b.water ∧ a.travel = b.travel ∧ a.fuel = b.fuel ∧
    a.bikeRepair = b.bikeRepair ∧ a.parcel = b.parcel ∧
    a.compoundInvestment = b.compoundInvestment ∧ a.others = b.others ∧
    a.dailyCash = b.dailyCash ∧ a.timestamp = b.timestamp

/-- The per-position chain invariant of a list of entries: each entry's
`broughtForward` equals the previous entry's `totalBalance`. -/
def Chained (l : List Tx) : Prop :=
  ∀ i : Nat, (h : i + 1 < l.length) →
    (l.get ⟨i + 1, h⟩).broughtForward =
      (l.get ⟨i, Nat.lt_of_succ_lt h⟩).totalBalance

/-! ## Basic facts about the sort -/

theorem sortTx_perm (txs : List Tx) : (sortTx txs).Perm txs :=
  List.perm_insertionSort txLE txs

theorem sortTx_sorted (txs : List Tx) : List.Sorted txLE (sortTx txs) :=
  List.sorted_insertionSort txLE txs

theorem sortTx_of_sorted {txs : List Tx} (h : List.Sorted txLE txs) :
    sortTx txs = txs :=
  h.insertionSort_eq

theorem mem_sortTx {tx : Tx} {txs : List Tx} : tx ∈ sortTx txs ↔ tx ∈ txs :=
  (sortTx_perm txs).mem_iff

theorem txLE_refl (a : Tx) : txLE a a := by
  unfold txLE
  exact Or.inr ⟨rfl, by simp [strLt_iff_lt]⟩

/-! ## Frame facts: the recalculation rewrites only the derived fields -/

theorem applyTx_frame (r : JNum) (tx : Tx) : SameFrame (applyTx r tx).1 tx :=
  ⟨rfl, rfl, rfl, rfl, rfl, rfl, rfl, rfl, rfl, rfl, rfl, rfl, rfl, rfl,
    rfl, rfl, rfl, rfl⟩

theorem applyTx_key (r : JNum) (tx : Tx) : keyOf (applyTx r tx).1 = keyOf tx :=
  rfl

theorem recalcGo_map_key (r : JNum) (l : List Tx) :
    (recalcGo r l).map keyOf = l.map keyOf := by
  induction l generalizing r with
  | nil => rfl
  | cons tx rest ih => simp [recalcGo, applyTx_key, ih]

theorem recalcGo_forall₂ (r : JNum) (l : List Tx) :
    List.Forall₂ SameFrame (recalcGo r l) l := by
  induction l generalizing r with
  | nil => exact List.Forall₂.nil
  | cons tx rest ih => exact List.Forall₂.cons (applyTx_frame _ _) (ih _)

theorem recalculateChain_forall₂ (txs : List Tx) :
    List.Forall₂ SameFrame (recalculateChain txs) (sortTx txs) := by
  unfold recalculateChain
  cases h : sortTx txs with
  | nil => exact List.Forall₂.nil
  | cons tx rest =>
    exact List.Forall₂.cons (applyTx_frame _ _) (recalcGo_forall₂ _ _)

theorem recalculateChain_map_key (txs : List Tx) :
    (recalculateChain txs).map keyOf = (sortTx txs).map keyOf := by
  unfold recalculateChain
  cases h : sortTx txs with
  | nil => rfl
  | cons tx rest => simp [applyTx_key, recalcGo_map_key]

theorem recalculateChain_length (txs : List Tx) :
    (recalculateChain txs).length = txs.length := by
  have h1 := (recalculateChain_forall₂ txs).length_eq
  have h2 := (sortTx_perm txs).length_eq
  omega

/-! ## The chain invariant -/

/-- Every entry emitted by `recalcGo r l` opens with `ofNum r` at the head,
and the brought-forward/total-balance chain links up throughout. -/
theorem recalcGo_head_bf (r : JNum) (l : List Tx) :
    ∀ y ∈ (recalcGo r l).head?, y.broughtForward = ofNum r := by
  cases l with
  | nil => intro y hy; cases hy
  | cons tx rest =>
    intro y hy
    simp only [recalcGo, List.head?_cons, Option.mem_def, Option.some.injEq] at hy
    subst hy
    rfl

theorem recalcGo_chain (r : JNum) (l : List Tx) :
    List.Chain' (fun a b => b.broughtForward = a.totalBalance) (recalcGo r l) := by
  induction l generalizing r with
  | nil => exact List.chain'_nil
  | cons tx rest ih =>
    rw [recalcGo, List.chain'_cons']
    refine ⟨fun y hy => ?_, ih _⟩
    rw [recalcGo_head_bf _ _ y hy]
    rfl

theorem recalculateChain_chain (txs : List Tx) :
    List.Chain' (fun a b => b.broughtForward = a.totalBalance)
      (recalculateChain txs) := by
  unfold recalculateChain
  cases sortTx txs with
  | nil => exact List.chain'_nil
  | cons tx rest =>
    rw [List.chain'_cons']
    refine ⟨fun y hy => ?_, recalcGo_chain _ _⟩
    rw [recalcGo_head_bf _ _ y hy]
    rfl

theorem chained_of_chain' {l : List Tx}
    (h : List.Chain' (fun a b => b.broughtForward = a.totalBalance) l) :
    Chained l := by
  intro i hi
  exact List.chain'_iff_get.mp h i (by omega)

/-! ## Sample entries for the concrete instantiations -/

/-- An entry with every optional/amount field absent, as a base point. -/
def blankTx : Tx where
  id := none
  date := ""
  month := ""
  groceries := .undef
  vegetables := .undef
  fishEgg := .undef
  chicken := .undef
  houseRent := .undef
  electricity := .undef
  water := .undef
  travel := .undef
  fuel := .undef
  bikeRepair := .undef
  parcel := .undef
  compoundInvestment := .undef
  others := .undef
  dailyCash := .undef
  broughtForward := .undef
  totalExpenses := .undef
  totalBalance := .undef
  timestamp := ""

/-- March 1st entry of the worked example of spec §8. -/
def ex1 : Tx :=
  { blankTx with
      id := some "e1"
      date := "2024-03-01"
      timestamp := "2024-03-01T10:00:00.000Z"
      broughtForward := .num 1000
      dailyCash := .num 500
      groceries := .num 200 }

/-- March 2nd entry of the worked example of spec §8. -/
def ex2 : Tx :=
  { blankTx with
      id := some "e2"
      date := "2024-03-02"
      timestamp := "2024-03-02T10:00:00.000Z"
      dailyCash := .num 0
      groceries := .num 100 }

/-- C1.  The output of the Chain Recalculator, in its chronological order,
has every entry's `broughtForward` equal to the previous entry's
`totalBalance` (as stored values, so the link is an exact copy, never a
recomputation); and each of create, update and delete persists exactly
`recalculateChain` of its mutated list, so the invariant holds of every
persisted ledger. -/
theorem recalculateChain_chain_invariant (txs : List Tx) :
    Chained (recalculateChain txs) ∧
    ∀ stored data i now newId,
      persistedAdd stored data now newId =
          recalculateChain (addList stored data now newId) ∧
        persistedUpdate stored i data =
          recalculateChain (updateList stored i data) ∧
        persistedDelete stored i = recalculateChain (deleteList stored i) ∧
        Chained (persistedAdd stored data now newId) ∧
        Chained (persistedUpdate stored i data) ∧
        Chained (persistedDelete stored i) := by
  refine ⟨chained_of_chain' (recalculateChain_chain txs), ?_⟩
  intro stored data i now newId
  exact ⟨rfl, rfl, rfl,
    chained_of_chain' (recalculateChain_chain _),
    chained_of_chain' (recalculateChain_chain _),
    chained_of_chain' (recalculateChain_chain _)⟩

/-- Witness for C1: on the two-day ledger of spec §8, the second persisted
entry's `broughtForward` is the first entry's `totalBalance`. -/
theorem recalculateChain_chain_invariant_witness :
    ((recalculateChain [ex2, ex1]).get ⟨1, by decide⟩).broughtForward =
      ((recalculateChain [ex2, ex1]).get ⟨0, by decide⟩).totalBalance :=
  (recalculateChain_chain_invariant [ex2, ex1]).1 0 (by decide)

/-- C8.  The recalculation preserves length, its output is the sorted input
entrywise rewritten, and only the three derived fields change: every output
entry agrees with its chronological-position input entry on `id`, `date`,
`month`, `timestamp`, `dailyCash` and all thirteen category amounts
(including the parallel `fuel`, `bikeRepair`, `parcel`,
`compoundInvestment`), while the sorted input is a permutation of the
original input. -/
theorem recalculateChain_frame (txs : List Tx) :
    (recalculateChain txs).length = txs.length ∧
    (sortTx txs).Perm txs ∧
    List.Forall₂ SameFrame (recalculateChain txs) (sortTx txs) :=
  ⟨recalculateChain_length txs, sortTx_perm txs, recalculateChain_forall₂ txs⟩

theorem updateList_of_missing {stored : List Tx} {i : String} (data : Tx)
    (h : ∀ tx ∈ stored, tx.id ≠ some i) :
    updateList stored i data = stored := by
  unfold updateList
  induction stored with
  | nil => rfl
  | cons tx rest ih =>
    rw [List.map_cons, if_neg (h tx (by simp)), ih (fun f hf => h f (by simp [hf]))]

theorem deleteList_of_missing {stored : List Tx} {i : String}
    (h : ∀ tx ∈ stored, tx.id ≠ some i) :
    deleteList stored i = stored := by
  unfold deleteList
  rw [List.filter_eq_self]
  intro a ha
  simpa using h a ha

/-- C10.  When the given `id` matches no stored entry, update and delete
leave the entry list untouched (the model is total, so no error is raised
and nothing is reported), still recalculate it, and persist exactly the
recalculated ledger, which differs from the stored entries only by order
and by the three derived fields. -/
theorem missing_id_mutations (stored : List Tx) (i : String) (data : Tx)
    (h : ∀ tx ∈ stored, tx.id ≠ some i) :
    updateList stored i data = stored ∧
    deleteList stored i = stored ∧
    persistedUpdate stored i data = recalculateChain stored ∧
    persistedDelete stored i = recalculateChain stored ∧
    List.Forall₂ SameFrame (recalculateChain stored) (sortTx stored) ∧
    (sortTx stored).Perm stored := by
  have hu := updateList_of_missing (i := i) data h
  have hd := deleteList_of_missing (i := i) h
  exact ⟨hu, hd, by rw [persistedUpdate, hu], by rw [persistedDelete, hd],
    recalculateChain_forall₂ stored, sortTx_perm stored⟩

/-- Witness for C10: updating or deleting the unknown id `"zzz"` on the
one-entry ledger `[ex1]` leaves the list unchanged and persists its
recalculation. -/
theorem missing_id_mutations_witness :
    updateList [ex1] "zzz" ex2 = [ex1] ∧
      persistedDelete [ex1] "zzz" = recalculateChain [ex1] :=
  ⟨(missing_id_mutations [ex1] "zzz" ex2 (by decide)).1,
    (missing_id_mutations [ex1] "zzz" ex2 (by decide)).2.2.2.1⟩

/-! ## Idempotence of the recalculation -/

/-- The comparator order seen at the level of sort keys. -/
def keyLE (p q : String × String) : Prop :=
  strLt p.1 q.1 ∨ (p.1 = q.1 ∧ ¬ strLt q.2 p.2)

theorem txLE_iff_keyLE (a b : Tx) : txLE a b ↔ keyLE (keyOf a) (keyOf b) :=
  Iff.rfl

/-- Two lists with the same sort keys position by position are sorted
together. -/
theorem pairwise_txLE_of_map_key {l₁ l₂ : List Tx}
    (hmap : l₁.map keyOf = l₂.map keyOf) (h : List.Pairwise txLE l₂) :
    List.Pairwise txLE l₁ := by
  have h2 : List.Pairwise keyLE (l₂.map keyOf) :=
    List.pairwise_map.mpr (h.imp fun hab => (txLE_iff_keyLE _ _).mp hab)
  rw [← hmap] at h2
  exact (List.pairwise_map.mp h2).imp fun hab => (txLE_iff_keyLE _ _).mpr hab

/-- Re-applying the per-entry rewrite with the same opening balance is a
no-op: the rewrite only changes the three derived fields, and the inputs of
the computation (`dailyCash`, the categories) are not among them. -/
theorem applyTx_applyTx (r : JNum) (tx : Tx) :
    applyTx r (applyTx r tx).1 = applyTx r tx :=
  rfl

theorem jnumOfOr_ofNum_some (q : ℚ) : jnumOfOr (ofNum (some q)) = some q :=
  rfl

theorem recalcGo_idem (r : JNum) (l : List Tx) :
    recalcGo r (recalcGo r l) = recalcGo r l := by
  induction l generalizing r with
  | nil => rfl
  | cons tx rest ih =>
    rw [recalcGo, recalcGo, applyTx_applyTx, ih]

/-- The recalculated list is sorted by the comparator (the rewrite keeps
every `date` and `timestamp`). -/
theorem recalculateChain_sorted (txs : List Tx) :
    List.Pairwise txLE (recalculateChain txs) :=
  pairwise_txLE_of_map_key (recalculateChain_map_key txs) (sortTx_sorted txs)

theorem recalculateChain_cons_of_sorted {t : Tx} {rest : List Tx}
    (h : List.Pairwise txLE (t :: rest)) :
    recalculateChain (t :: rest) =
      (applyTx (jnumOfOr t.broughtForward) t).1 ::
        recalcGo (applyTx (jnumOfOr t.broughtForward) t).2 rest := by
  rw [recalculateChain, sortTx_of_sorted h]

/-- C4 (amended).  The Chain Recalculator is idempotent on every input that
is empty or whose chronologically first entry's `broughtForward` coerces to
an actual number under `Number(x || 0)` — that is, is anything but a truthy
non-numeric string.  (On a truthy non-numeric first `broughtForward` the
first pass stores `NaN`, which the second pass coerces to `0`, so full
idempotence fails; see the counterexample.) -/
theorem recalculateChain_idem (txs : List Tx)
    (h : ((sortTx txs).head?.all fun t => (jnumOfOr t.broughtForward).isSome) = true) :
    recalculateChain (recalculateChain txs) = recalculateChain txs := by
  cases h' : sortTx txs with
  | nil =>
    have hnil : recalculateChain txs = [] := by rw [recalculateChain, h']
    rw [hnil]
    rfl
  | cons t rest =>
    rw [h'] at h
    have hq : ∃ q, jnumOfOr t.broughtForward = some q := by
      cases hmm : jnumOfOr t.broughtForward with
      | none => simp [Option.all, hmm] at h
      | some q => exact ⟨q, rfl⟩
    obtain ⟨q, hq⟩ := hq
    have hrc : recalculateChain txs =
        (applyTx (jnumOfOr t.broughtForward) t).1 ::
          recalcGo (applyTx (jnumOfOr t.broughtForward) t).2 rest := by
      rw [recalculateChain, h']
    have hsorted : List.Pairwise txLE
        ((applyTx (jnumOfOr t.broughtForward) t).1 ::
          recalcGo (applyTx (jnumOfOr t.broughtForward) t).2 rest) := by
      rw [← hrc]
      exact recalculateChain_sorted txs
    have hbf : jnumOfOr ((applyTx (jnumOfOr t.broughtForward) t).1).broughtForward
        = jnumOfOr t.broughtForward := by
      show jnumOfOr (ofNum (jnumOfOr t.broughtForward)) = jnumOfOr t.broughtForward
      rw [hq]
      rfl
    rw [hrc, recalculateChain_cons_of_sorted hsorted, hbf, applyTx_applyTx,
      recalcGo_idem]

/-- A single entry whose `broughtForward` is a truthy non-numeric string. -/
def badBf : Tx :=
  { blankTx with
      id := some "bad"
      date := "2024-03-01"
      timestamp := "2024-03-01T10:00:00.000Z"
      broughtForward := .strBad }

/-- Counterexample for C4 as stated: on an entry whose `broughtForward` is a
non-numeric string, the first pass stores `NaN` but the second pass turns it
into `0`, so re-running the recalculation is not a no-op. -/
theorem recalculateChain_idem_counterexample :
    recalculateChain (recalculateChain [badBf]) ≠ recalculateChain [badBf] := by
  decide

/-- Witness for C4 (amended): on the two-day ledger of spec §8 the
hypothesis holds and recalculation is idempotent. -/
theorem recalculateChain_idem_witness :
    recalculateChain (recalculateChain [ex2, ex1]) = recalculateChain [ex2, ex1] :=
  recalculateChain_idem [ex2, ex1] (by decide)

/-! ## Order independence -/

/-- The strict part of the comparator order: earlier date, or same date and
strictly earlier timestamp. -/
def txLT (a b : Tx) : Prop :=
  strLt a.date b.date ∨ (a.date = b.date ∧ strLt a.timestamp b.timestamp)

instance : IsAntisymm Tx txLT where
  antisymm a b hab hba := by
    unfold txLT at *
    simp only [strLt_iff_lt] at hab hba
    exfalso
    rcases hab with h1 | ⟨e1, t1⟩
    · rcases hba with h2 | ⟨e2, _⟩
      · exact absurd h2 (lt_asymm h1)
      · exact absurd (e2 ▸ h1) (lt_irrefl _)
    · rcases hba with h2 | ⟨_, t2⟩
      · exact absurd (e1 ▸ h2) (lt_irrefl _)
      · exact absurd t2 (lt_asymm t1)

/-- Entries pairwise distinct in `(date, timestamp)` and sorted by the
comparator are strictly sorted. -/
theorem pairwise_txLT_of_txLE {l : List Tx} (hs : List.Pairwise txLE l)
    (hd : List.Pairwise (fun a b => keyOf a ≠ keyOf b) l) :
    List.Pairwise txLT l := by
  refine (List.pairwise_and_iff.mpr ⟨hs, hd⟩).imp ?_
  rintro a b ⟨hle, hne⟩
  rcases hle with h1 | ⟨e1, t1⟩
  · exact Or.inl h1
  · refine Or.inr ⟨e1, ?_⟩
    rcases lt_trichotomy a.timestamp b.timestamp with h | h | h
    · exact (strLt_iff_lt _ _).mpr h
    · exact absurd (Prod.ext e1 h) hne
    · exact absurd ((strLt_iff_lt _ _).mpr h) t1

/-- On entry sets with pairwise distinct `(date, timestamp)` keys, the sort
result is determined by the set alone, not the input order. -/
theorem sortTx_eq_of_perm {txs txs' : List Tx} (hperm : txs.Perm txs')
    (hd : List.Pairwise (fun a b => keyOf a ≠ keyOf b) txs) :
    sortTx txs' = sortTx txs := by
  have hsymm : ∀ {x y : Tx}, keyOf x ≠ keyOf y → keyOf y ≠ keyOf x :=
    fun h => h.symm
  have hd' : List.Pairwise (fun a b => keyOf a ≠ keyOf b) txs' :=
    (hperm.pairwise_iff hsymm).mp hd
  have hds : List.Pairwise (fun a b => keyOf a ≠ keyOf b) (sortTx txs) :=
    ((sortTx_perm txs).pairwise_iff hsymm).mpr hd
  have hds' : List.Pairwise (fun a b => keyOf a ≠ keyOf b) (sortTx txs') :=
    ((sortTx_perm txs').pairwise_iff hsymm).mpr hd'
  exact List.eq_of_perm_of_sorted
    (((sortTx_perm txs').trans hperm.symm).trans (sortTx_perm txs).symm)
    (pairwise_txLT_of_txLE (sortTx_sorted txs') hds')
    (pairwise_txLT_of_txLE (sortTx_sorted txs) hds)

/-- C5 (amended).  The Chain Recalculator is order-independent on every
input whose entries have pairwise distinct `(date, timestamp)` keys: any
permutation of the input yields the identical output.  (When two entries
share both `date` and `timestamp` the stable sort preserves their input
order, so different input orders can produce different outputs; see the
counterexample.) -/
theorem recalculateChain_order_independent (txs txs' : List Tx)
    (hperm : txs.Perm txs')
    (hd : List.Pairwise (fun a b => keyOf a ≠ keyOf b) txs) :
    recalculateChain txs' = recalculateChain txs := by
  unfold recalculateChain
  rw [sortTx_eq_of_perm hperm hd]

/-- First of two entries that tie on both `date` and `timestamp`. -/
def tieA : Tx :=
  { blankTx with
      id := some "tieA"
      date := "2024-03-01"
      timestamp := "2024-03-01T10:00:00.000Z"
      dailyCash := .num 1 }

/-- Second of two entries that tie on both `date` and `timestamp`. -/
def tieB : Tx :=
  { blankTx with
      id := some "tieB"
      date := "2024-03-01"
      timestamp := "2024-03-01T10:00:00.000Z"
      dailyCash := .num 2 }

/-- Counterexample for C5 as stated: swapping two entries that share both
`date` and `timestamp` changes the output (the stable sort keeps them in
input order, so each order puts a different entry first in the chain). -/
theorem recalculateChain_order_independent_counterexample :
    [tieA, tieB].Perm [tieB, tieA] ∧
      recalculateChain [tieA, tieB] ≠ recalculateChain [tieB, tieA] :=
  ⟨List.Perm.swap _ _ _, by decide⟩

/-- Witness for C5 (amended): the two orders of the two-day ledger of spec
§8 recalculate identically. -/
theorem recalculateChain_order_independent_witness :
    recalculateChain [ex2, ex1] = recalculateChain [ex1, ex2] :=
  recalculateChain_order_independent [ex1, ex2] [ex2, ex1]
    (List.Perm.swap _ _ _) (by decide)

/-! ## First-entry preservation and numeric leniency -/

/-- C6 (amended).  The chronologically first entry's output
`broughtForward` is its input `broughtForward` passed through the
`Number(x || 0)` coercion: a numeric value is preserved exactly, a missing
value (or `NaN`) becomes `0`, and a truthy non-numeric string becomes
`NaN` rather than `0` (the coercion replaces only falsy values by `0`
before converting). -/
theorem recalculateChain_first_entry (txs : List Tx) (t : Tx) (rest : List Tx)
    (h : sortTx txs = t :: rest) :
    (recalculateChain txs).head?.map (fun y => y.broughtForward) =
        some (ofNum (jnumOfOr t.broughtForward)) ∧
      (∀ q : ℚ, t.broughtForward = .num q →
        ofNum (jnumOfOr t.broughtForward) = .num q) ∧
      (t.broughtForward = .undef → ofNum (jnumOfOr t.broughtForward) = .num 0) ∧
      (t.broughtForward = .nan → ofNum (jnumOfOr t.broughtForward) = .num 0) ∧
      (t.broughtForward = .strBad → ofNum (jnumOfOr t.broughtForward) = .nan) := by
  refine ⟨?_, ?_, ?_, ?_, ?_⟩
  · rw [recalculateChain, h]
    rfl
  · intro q hq
    rw [hq]
    rfl
  · intro hq
    rw [hq]
    rfl
  · intro hq
    rw [hq]
    rfl
  · intro hq
    rw [hq]
    rfl

/-- Counterexample for C6 as stated: a non-numeric `broughtForward` on the
first entry becomes `NaN` in the output, not `0`. -/
theorem recalculateChain_first_entry_counterexample :
    (recalculateChain [badBf]).map (fun y => y.broughtForward) = [JVal.nan] ∧
      JVal.nan ≠ JVal.num 0 := by
  decide

/-- Witness for C6 (amended): on the ledger of spec §8 the first entry's
supplied `broughtForward` of `1000` survives recalculation exactly. -/
theorem recalculateChain_first_entry_witness :
    (recalculateChain [ex2, ex1]).head?.map (fun y => y.broughtForward) =
      some (ofNum (jnumOfOr ex1.broughtForward)) :=
  (recalculateChain_first_entry [ex2, ex1] ex1 [ex2] (by decide)).1

/-- An entry whose `dailyCash` is a truthy non-numeric string. -/
def cashBad : Tx :=
  { blankTx with
      id := some "cb"
      date := "2024-03-01"
      timestamp := "2024-03-01T10:00:00.000Z"
      broughtForward := .num 10
      dailyCash := .strBad }

/-- The same entry with `dailyCash` `0` instead. -/
def cashZero : Tx :=
  { cashBad with dailyCash := .num 0 }

theorem toNumOr0_num (q : ℚ) : toNumOr0 (.num q) = q := rfl

theorem toNumOr0_of_none {v : JVal} (hv : jnum v = none) : toNumOr0 v = 0 := by
  rw [toNumOr0, hv]
  rfl

/-- C7 (amended).  The Chain Recalculator is total (it is a function and
never signals an error), maps the empty input to the empty output and
preserves length; a missing or non-numeric value in any of the nine
category amounts contributes exactly `0` to the expense total and thereby
to the balance (`Number(x) || 0` collapses `NaN` to `0`); a missing (or
`NaN`) `dailyCash` likewise contributes `0`; but a truthy non-numeric
`dailyCash` is coerced with `Number(x || 0)` and therefore turns the
entry's `totalBalance` into `NaN` instead of contributing `0`. -/
theorem recalculateChain_lenient :
    recalculateChain [] = [] ∧
    (∀ txs : List Tx, (recalculateChain txs).length = txs.length) ∧
    (toNumOr0 .undef = 0 ∧ toNumOr0 .nan = 0 ∧ toNumOr0 .strBad = 0) ∧
    (∀ tx : Tx, ∀ v : JVal, jnum v = none →
      expenseOf { tx with groceries := v } = expenseOf { tx with groceries := .num 0 } ∧
      expenseOf { tx with vegetables := v } = expenseOf { tx with vegetables := .num 0 } ∧
      expenseOf { tx with fishEgg := v } = expenseOf { tx with fishEgg := .num 0 } ∧
      expenseOf { tx with chicken := v } = expenseOf { tx with chicken := .num 0 } ∧
      expenseOf { tx with houseRent := v } = expenseOf { tx with houseRent := .num 0 } ∧
      expenseOf { tx with electricity := v } = expenseOf { tx with electricity := .num 0 } ∧
      expenseOf { tx with water := v } = expenseOf { tx with water := .num 0 } ∧
      expenseOf { tx with travel := v } = expenseOf { tx with travel := .num 0 } ∧
      expenseOf { tx with others := v } = expenseOf { tx with others := .num 0 }) ∧
    (∀ r : JNum, ∀ tx tx' : Tx, expenseOf tx = expenseOf tx' →
      tx.dailyCash = tx'.dailyCash →
      (applyTx r tx).1.totalExpenses = (applyTx r tx').1.totalExpenses ∧
        (applyTx r tx).1.totalBalance = (applyTx r tx').1.totalBalance) ∧
    (∀ r : JNum, ∀ tx : Tx, ∀ v : JVal, v = JVal.undef ∨ v = JVal.nan →
      (applyTx r { tx with dailyCash := v }).1.totalBalance =
        (applyTx r { tx with dailyCash := .num 0 }).1.totalBalance) ∧
    (∀ q : ℚ, ∀ tx : Tx, tx.dailyCash = .strBad →
      (applyTx (some q) tx).1.totalBalance = .nan) := by
  refine ⟨rfl, recalculateChain_length, ⟨rfl, rfl, rfl⟩, ?_, ?_, ?_, ?_⟩
  · intro tx v hv
    refine ⟨?_, ?_, ?_, ?_, ?_, ?_, ?_, ?_, ?_⟩ <;>
      simp [expenseOf, toNumOr0_num, toNumOr0_of_none hv]
  · intro r tx tx' hexp hcash
    constructor
    · show JVal.num (expenseOf tx) = JVal.num (expenseOf tx')
      rw [hexp]
    · show ofNum (jsub (jadd r (jnumOfOr tx.dailyCash)) (some (expenseOf tx))) =
        ofNum (jsub (jadd r (jnumOfOr tx'.dailyCash)) (some (expenseOf tx')))
      rw [hexp, hcash]
  · rintro r tx v (rfl | rfl) <;>
    · show ofNum (jsub (jadd r (some 0)) _) = ofNum (jsub (jadd r (some 0)) _)
      rfl
  · intro q tx hv
    show ofNum (jsub (jadd (some q) (jnumOfOr tx.dailyCash)) _) = .nan
    rw [hv]
    cases (some q : JNum) <;> rfl

/-- Counterexample for C7 as stated: with a non-numeric `dailyCash`, the
persisted `totalBalance` becomes `NaN`; had the field contributed `0`, the
balance would have been the numeric `10` that the same entry with
`dailyCash = 0` produces. -/
theorem recalculateChain_lenient_counterexample :
    (recalculateChain [cashBad]).map (fun y => y.totalBalance) = [JVal.nan] ∧
      (recalculateChain [cashZero]).map (fun y => y.totalBalance) = [JVal.num 10] ∧
      JVal.nan ≠ JVal.num 10 := by
  refine ⟨by decide, ?_, by decide⟩
  have hs : sortTx [cashZero] = [cashZero] := by decide
  simp only [recalculateChain, hs, recalcGo, applyTx, expenseOf, toNumOr0, jnumOfOr,
    jnum, jadd, jsub, ofNum, List.map, cashZero, cashBad, blankTx]
  norm_num

/-- Witness for C7 (amended): a missing `groceries` value contributes `0`
to the expense total of the §8 example entry. -/
theorem recalculateChain_lenient_witness :
    expenseOf { ex1 with groceries := JVal.undef } =
      expenseOf { ex1 with groceries := JVal.num 0 } :=
  ((recalculateChain_lenient.2.2.2.1) ex1 JVal.undef rfl).1

/-! ## The Starting-Balance Resolver -/

/-- The entry found by scanning the reverse of a comparator-sorted list is
latest in comparator order among all entries satisfying the predicate. -/
theorem find?_max_of_pairwise {m : List Tx} {p : Tx → Bool} {e : Tx}
    (hm : List.Pairwise (fun a b => txLE b a) m) (he : m.find? p = some e) :
    ∀ f ∈ m, p f = true → txLE f e := by
  induction m with
  | nil => cases he
  | cons x rest ih =>
    intro f hf hpf
    cases hpx : p x with
    | true =>
      rw [List.find?_cons_of_pos _ hpx] at he
      cases he
      rcases List.mem_cons.mp hf with rfl | hf'
      · exact txLE_refl f
      · exact (List.pairwise_cons.mp hm).1 f hf'
    | false =>
      rw [List.find?_cons_of_neg _ (by simp [hpx])] at he
      rcases List.mem_cons.mp hf with rfl | hf'
      · rw [hpf] at hpx
        cases hpx
      · exact ih (List.pairwise_cons.mp hm).2 he f hf' hpf

/-- C2.  The Starting-Balance Resolver returns: the (coerced) `broughtForward`
of an entry whose `date` equals the target, if one exists; otherwise the
(coerced) `totalBalance` of an entry dated strictly before the target that is
latest in `(date, timestamp)` order among those; otherwise `0` — in
particular `0` on an empty ledger or a target preceding all history. -/
theorem getStartingBalance_spec (txs : List Tx) (d : String) :
    ((∃ e ∈ txs, e.date = d) →
      ∃ e ∈ txs, e.date = d ∧
        getStartingBalance txs d = jnumOfOr e.broughtForward) ∧
    ((¬ ∃ e ∈ txs, e.date = d) → (∃ e ∈ txs, strLt e.date d) →
      ∃ e ∈ txs, strLt e.date d ∧ (∀ f ∈ txs, strLt f.date d → txLE f e) ∧
        getStartingBalance txs d = jnumOfOr e.totalBalance) ∧
    ((¬ ∃ e ∈ txs, e.date = d) → (¬ ∃ e ∈ txs, strLt e.date d) →
      getStartingBalance txs d = some 0) := by
  refine ⟨?_, ?_, ?_⟩
  · rintro ⟨e0, he0, hd0⟩
    have hne : ¬ txs = [] := by
      rintro rfl
      cases he0
    cases hfind : (sortTx txs).find? (fun tx => decide (tx.date = d)) with
    | none =>
      exact absurd (decide_eq_true hd0)
        (List.find?_eq_none.mp hfind e0 (mem_sortTx.mpr he0))
    | some e =>
      have hp := List.find?_some hfind
      simp only [decide_eq_true_eq] at hp
      refine ⟨e, mem_sortTx.mp (List.mem_of_find?_eq_some hfind), hp, ?_⟩
      rw [getStartingBalance, if_neg hne, hfind]
  · rintro hno ⟨e0, he0, hlt0⟩
    have hne : ¬ txs = [] := by
      rintro rfl
      cases he0
    have hfind : (sortTx txs).find? (fun tx => decide (tx.date = d)) = none := by
      rw [List.find?_eq_none]
      intro x hx hpx
      exact hno ⟨x, mem_sortTx.mp hx, of_decide_eq_true hpx⟩
    cases hfind2 : (sortTx txs).reverse.find? (fun tx => decide (strLt tx.date d)) with
    | none =>
      exact absurd (decide_eq_true hlt0)
        (List.find?_eq_none.mp hfind2 e0
          (List.mem_reverse.mpr (mem_sortTx.mpr he0)))
    | some e =>
      have hp := List.find?_some hfind2
      simp only [decide_eq_true_eq] at hp
      refine ⟨e,
        mem_sortTx.mp (List.mem_reverse.mp (List.mem_of_find?_eq_some hfind2)),
        hp, ?_, ?_⟩
      · intro f hf hltf
        have hm : List.Pairwise (fun a b => txLE b a) ((sortTx txs).reverse) :=
          List.pairwise_reverse.mpr (sortTx_sorted txs)
        exact find?_max_of_pairwise hm hfind2 f
          (List.mem_reverse.mpr (mem_sortTx.mpr hf)) (decide_eq_true hltf)
      · rw [getStartingBalance, if_neg hne, hfind, hfind2]
  · intro hno hnolt
    by_cases hne : txs = []
    · subst hne
      rfl
    · have hfind : (sortTx txs).find? (fun tx => decide (tx.date = d)) = none := by
        rw [List.find?_eq_none]
        intro x hx hpx
        exact hno ⟨x, mem_sortTx.mp hx, of_decide_eq_true hpx⟩
      have hfind2 : (sortTx txs).reverse.find? (fun tx => decide (strLt tx.date d)) = none := by
        rw [List.find?_eq_none]
        intro x hx hpx
        exact hnolt ⟨x, mem_sortTx.mp (List.mem_reverse.mp hx), of_decide_eq_true hpx⟩
      rw [getStartingBalance, if_neg hne, hfind, hfind2]

/-- Witness for C2: on the §8 ledger the resolver returns the existing
March 1st entry's `broughtForward` for its own date. -/
theorem getStartingBalance_spec_witness :
    (∃ e ∈ [ex2, ex1], e.date = "2024-03-01") ∧
      (∃ e ∈ [ex2, ex1], e.date = "2024-03-01" ∧
        getStartingBalance [ex2, ex1] "2024-03-01" = jnumOfOr e.broughtForward) :=
  ⟨by decide, (getStartingBalance_spec [ex2, ex1] "2024-03-01").1 (by decide)⟩

/-! ## Merge-on-create and month derivation -/

theorem forall₂_sameFrame_map_month {l₁ l₂ : List Tx}
    (h : List.Forall₂ SameFrame l₁ l₂) :
    l₁.map (fun t => t.month) = l₂.map (fun t => t.month) := by
  induction h with
  | nil => rfl
  | cons hab _ ih =>
    simp only [List.map_cons, ih, hab.2.2.1]

theorem addList_of_no_match {stored : List Tx} {data : Tx} (now nid : String)
    (h : ∀ f ∈ stored, f.date ≠ data.date) :
    addList stored data now nid =
      stored ++ [{ data with id := some nid, timestamp := now }] := by
  induction stored with
  | nil => rfl
  | cons tx rest ih =>
    rw [addList, if_neg (h tx (by simp)), ih fun f hf => h f (by simp [hf]),
      List.cons_append]

theorem addList_merge_at {pre : List Tx} {e : Tx} (post : List Tx) (data : Tx)
    (now nid : String) (hpre : ∀ f ∈ pre, f.date ≠ data.date)
    (he : e.date = data.date) :
    addList (pre ++ e :: post) data now nid =
      pre ++ mergeTx e data now :: post := by
  induction pre with
  | nil => simp [addList, he]
  | cons tx rest ih =>
    rw [List.cons_append, addList, if_neg (hpre tx (by simp)),
      ih fun f hf => hpre f (by simp [hf]), List.cons_append]

theorem mergeTx_date (e data : Tx) (now : String) :
    (mergeTx e data now).date = e.date := rfl

theorem addList_countP (stored : List Tx) (data : Tx) (now nid : String) :
    (addList stored data now nid).countP (fun tx => decide (tx.date = data.date)) =
      max (stored.countP (fun tx => decide (tx.date = data.date))) 1 := by
  induction stored with
  | nil => simp [addList, List.countP_cons]
  | cons tx rest ih =>
    by_cases h : tx.date = data.date
    · rw [addList, if_pos h]
      rw [List.countP_cons, List.countP_cons]
      simp only [mergeTx_date, h]
      simp
    · rw [addList, if_neg h, List.countP_cons, List.countP_cons, ih]
      simp only [h]
      simp

theorem recalculateChain_map_date (txs : List Tx) :
    (recalculateChain txs).map (fun t => t.date) =
      (sortTx txs).map (fun t => t.date) := by
  have h := recalculateChain_map_key txs
  have h1 : (recalculateChain txs).map (fun t => t.date) =
      ((recalculateChain txs).map keyOf).map Prod.fst := by
    rw [List.map_map]
    rfl
  have h2 : (sortTx txs).map (fun t => t.date) =
      ((sortTx txs).map keyOf).map Prod.fst := by
    rw [List.map_map]
    rfl
  rw [h1, h2, h]

theorem recalculateChain_countP_date (txs : List Tx) (dd : String) :
    (recalculateChain txs).countP (fun tx => decide (tx.date = dd)) =
      txs.countP (fun tx => decide (tx.date = dd)) := by
  have hmap : ∀ l : List Tx, l.countP (fun tx => decide (tx.date = dd)) =
      (l.map (fun t => t.date)).countP (fun s => decide (s = dd)) := by
    intro l
    rw [List.countP_map]
    rfl
  rw [hmap, hmap, recalculateChain_map_date]
  exact ((sortTx_perm txs).map (fun t => t.date)).countP_eq _

/-- C3 (amended).  When a submitted entry matches a stored date, the first
matching entry is replaced in place by the merge; the merge sums `dailyCash`
and the nine balance-affecting categories (with the `Number(x || 0)`
coercion), sets `timestamp` to the current instant, and keeps everything
else from the existing entry — in particular the parallel fields `fuel`,
`bikeRepair`, `parcel`, `compoundInvestment` keep the existing values and
the incoming ones are discarded, and `broughtForward` is untouched before
recalculation; a ledger holding exactly one entry of that date still holds
exactly one after the persisted create. -/
theorem addTransaction_merge (stored : List Tx) (data : Tx) (now nid : String) :
    (∀ e : Tx,
      (mergeTx e data now).dailyCash =
          ofNum (jadd (jnumOfOr e.dailyCash) (jnumOfOr data.dailyCash)) ∧
        (mergeTx e data now).groceries =
          ofNum (jadd (jnumOfOr e.groceries) (jnumOfOr data.groceries)) ∧
        (mergeTx e data now).vegetables =
          ofNum (jadd (jnumOfOr e.vegetables) (jnumOfOr data.vegetables)) ∧
        (mergeTx e data now).fishEgg =
          ofNum (jadd (jnumOfOr e.fishEgg) (jnumOfOr data.fishEgg)) ∧
        (mergeTx e data now).chicken =
          ofNum (jadd (jnumOfOr e.chicken) (jnumOfOr data.chicken)) ∧
        (mergeTx e data now).houseRent =
          ofNum (jadd (jnumOfOr e.houseRent) (jnumOfOr data.houseRent)) ∧
        (mergeTx e data now).electricity =
          ofNum (jadd (jnumOfOr e.electricity) (jnumOfOr data.electricity)) ∧
        (mergeTx e data now).water =
          ofNum (jadd (jnumOfOr e.water) (jnumOfOr data.water)) ∧
        (mergeTx e data now).travel =
          ofNum (jadd (jnumOfOr e.travel) (jnumOfOr data.travel)) ∧
        (mergeTx e data now).others =
          ofNum (jadd (jnumOfOr e.others) (jnumOfOr data.others)) ∧
        (mergeTx e data now).fuel = e.fuel ∧
        (mergeTx e data now).bikeRepair = e.bikeRepair ∧
        (mergeTx e data now).parcel = e.parcel ∧
        (mergeTx e data now).compoundInvestment = e.compoundInvestment ∧
        (mergeTx e data now).broughtForward = e.broughtForward ∧
        (mergeTx e data now).id = e.id ∧
        (mergeTx e data now).date = e.date ∧
        (mergeTx e data now).timestamp = now) ∧
    (∀ (pre : List Tx) (e : Tx) (post : List Tx),
      (∀ f ∈ pre, f.date ≠ data.date) → e.date = data.date →
        addList (pre ++ e :: post) data now nid =
          pre ++ mergeTx e data now :: post) ∧
    (stored.countP (fun tx => decide (tx.date = data.date)) = 1 →
      (persistedAdd stored data now nid).countP
          (fun tx => decide (tx.date = data.date)) = 1) := by
  refine ⟨?_, ?_, ?_⟩
  · intro e
    exact ⟨rfl, rfl, rfl, rfl, rfl, rfl, rfl, rfl, rfl, rfl, rfl, rfl, rfl,
      rfl, rfl, rfl, rfl, rfl⟩
  · intro pre e post hpre he
    exact addList_merge_at post data now nid hpre he
  · intro h1
    rw [persistedAdd, recalculateChain_countP_date, addList_countP, h1]
    rfl

/-- An existing March 1st entry carrying `fuel = 5`. -/
def fuelE : Tx := { ex1 with fuel := .num 5 }

/-- A submitted entry for the same date carrying `fuel = 7`. -/
def fuelD : Tx :=
  { blankTx with
      date := "2024-03-01"
      fuel := .num 7
      dailyCash := .num 3 }

/-- A second stored entry sharing `fuelE`'s date. -/
def fuelE2 : Tx := { fuelE with id := some "f2" }

/-- Counterexample for C3 as stated: merging a same-date entry keeps the
existing `fuel` of `5`, not the claimed sum `12` of the two originals'
`fuel` fields; and on a ledger that already holds two entries of the date,
the create leaves two entries of that date, not exactly one. -/
theorem addTransaction_merge_counterexample :
    (persistedAdd [fuelE] fuelD "2024-03-05T00:00:00.000Z" "nid").map
        (fun t => t.fuel) = [JVal.num 5] ∧
      (5 : ℚ) + 7 = 12 ∧ JVal.num 5 ≠ JVal.num 12 ∧
      (persistedAdd [fuelE, fuelE2] fuelD "2024-03-05T00:00:00.000Z" "nid").countP
          (fun tx => decide (tx.date = fuelD.date)) = 2 :=
  ⟨by decide, by norm_num, by decide, by decide⟩

/-- Witness for C3 (amended): creating a second March 1st entry on the §8
ledger leaves exactly one March 1st entry persisted. -/
theorem addTransaction_merge_witness :
    (persistedAdd [ex1] fuelD "T0" "n0").countP
        (fun tx => decide (tx.date = fuelD.date)) = 1 :=
  (addTransaction_merge [ex1] fuelD "T0" "n0").2.2 (by decide)

theorem updateList_map_month (stored : List Tx) (i : String) (data : Tx) :
    (updateList stored i data).map (fun t => t.month) =
      stored.map (fun t => if t.id = some i then data.month else t.month) := by
  induction stored with
  | nil => rfl
  | cons tx rest ih =>
    show ((if tx.id = some i then { data with id := some i } else tx) : Tx).month ::
        (updateList rest i data).map (fun t => t.month) =
      (if tx.id = some i then data.month else tx.month) ::
        rest.map (fun t => if t.id = some i then data.month else t.month)
    rw [ih]
    by_cases h : tx.id = some i <;> simp [h]

/-- C9 (amended).  The orchestrator itself never recomputes `month`: an
update persists the caller-supplied `month` verbatim, a create of a new
date appends the submitted entry with its supplied `month`, and a same-date
merge keeps the existing entry's stored `month` (discarding the incoming
one); the `month` that accompanies a form submission is derived from the
submitted `date` in the form's submit handler, and recalculation never
changes any `month`. -/
theorem month_write_semantics :
    (∀ fs : FormState, ∀ now : String,
      (formSubmit fs now).month = monthLabel fs.date) ∧
    (∀ (stored : List Tx) (i : String) (data : Tx),
      (updateList stored i data).map (fun t => t.month) =
        stored.map (fun t => if t.id = some i then data.month else t.month)) ∧
    (∀ e data : Tx, ∀ now : String, (mergeTx e data now).month = e.month) ∧
    (∀ (stored : List Tx) (data : Tx) (now nid : String),
      (∀ f ∈ stored, f.date ≠ data.date) →
        addList stored data now nid =
            stored ++ [{ data with id := some nid, timestamp := now }] ∧
          ({ data with id := some nid, timestamp := now } : Tx).month =
            data.month) ∧
    (∀ txs : List Tx, (recalculateChain txs).map (fun t => t.month) =
        (sortTx txs).map (fun t => t.month)) ∧
    (∀ txs : List Tx,
      ((sortTx txs).map (fun t => t.month)).Perm (txs.map (fun t => t.month))) :=
  ⟨fun _ _ => rfl, updateList_map_month, fun _ _ _ => rfl,
    fun _ data now nid h => ⟨addList_of_no_match now nid h, rfl⟩,
    fun txs => forall₂_sameFrame_map_month (recalculateChain_forall₂ txs),
    fun txs => (sortTx_perm txs).map _⟩

/-- An update submission whose `month` label contradicts its `date`. -/
def updWrong : Tx := { ex2 with month := "January 1999", date := "2024-03-05" }

/-- Counterexample for C9 as stated: an update whose supplied `month` is
"January 1999" against a date of 2024-03-05 persists that month verbatim;
the label derived from the date is "March 2024". -/
theorem month_write_counterexample :
    (persistedUpdate [ex1] "e1" updWrong).map (fun t => t.month) =
        ["January 1999"] ∧
      monthLabel "2024-03-05" = "March 2024" ∧
      ("January 1999" : String) ≠ "March 2024" := by
  decide

/-- Witness for C9 (amended): creating for a date not yet in the ledger
appends the submitted entry (supplied `month` included) unchanged apart
from the fresh `id` and `timestamp`. -/
theorem month_write_witness :
    addList [ex1] updWrong "T9" "n9" =
      [ex1] ++ [{ updWrong with id := some "n9", timestamp := "T9" }] :=
  (month_write_semantics.2.2.2.1 [ex1] updWrong "T9" "n9" (by decide)).1
